import Mathlib

/-!
Shallow embedding of `src/components.py` from GregKon/sp500_historical_components.

The script retrieves historical index membership from a wiki's revision
history: `get_revisions_metadata` queries the MediaWiki revisions endpoint,
`get_index_components_at` scrapes the component table out of the rendered
historical page, `get_index_components_history` iterates sample dates, and
`components_to_separate_csv` dumps one CSV per date.

Network and filesystem effects are made explicit: the wiki's revision store
and the rendered pages are inputs (`db`, `render`), file writes and printed
warnings are collected in the result, and Python exceptions are an explicit
`Except` error.  Timestamps and dates are `Nat` (any totally ordered clock).
-/

namespace SP500Hist

/-- A parsed HTML table as produced by `pd.read_html`: the header row of
column names plus the data rows.  `pd.read_html` yields rectangular frames
(every row as long as the header). -/
structure Table where
  header : List String
  rows : List (List String)
deriving Repr, DecidableEq

/-- The Python exceptions the script's own code paths can raise:
`KeyError` (missing dict key), `IndexError` (bad list index / `split()[0]`
on an empty split), `ValueError` (`pd.read_html` finding no table). -/
inductive PyError where
  | keyError
  | indexError
  | valueError
deriving Repr, DecidableEq

/-- An element of a pandas DataFrame index as seen by Python: a string label
after `set_index` on a text column, or an integer of the default
`RangeIndex` when `set_index` was never applied. -/
abbrev SymKey := String ⊕ Nat

/-- The DataFrame returned by `get_index_components_at`: its index name, the
remaining value columns, and the rows keyed by index element, in index
order. -/
structure ComponentTable where
  indexName : String
  columns : List String
  rows : List (SymKey × List String)
deriving Repr, DecidableEq

/-- The `for df in table:` scan of `get_index_components_at`
(src/components.py lines 98-104): find the first table, in document order,
whose columns contain `"Symbol"`, or failing that `"Ticker symbol"`, and
return it with the matched column name; `none` when no table matches. -/
def scanTables : List Table → Option (String × Table)
  | [] => none
  | t :: ts =>
    if t.header.contains "Symbol" then some ("Symbol", t)
    else if t.header.contains "Ticker symbol" then some ("Ticker symbol", t)
    else scanTables ts

/-- Does a table's header row contain one of the recognized symbol column
names? -/
def headerMatches (t : Table) : Bool :=
  t.header.contains "Symbol" || t.header.contains "Ticker symbol"

/-- The column `get_index_components_at` re-keys a matching table on:
`"Symbol"` is tested before `"Ticker symbol"`. -/
def matchedCol (t : Table) : String :=
  if t.header.contains "Symbol" then "Symbol" else "Ticker symbol"

/-- `df.set_index(col)`: re-key every row on column `col`, removing that
column from the value columns.  (`pd.read_html` frames are rectangular, so
the `getD` default is never consulted on well-formed input.) -/
def setIndex (col : String) (t : Table) : List (String × List String) :=
  t.rows.map fun r =>
    (r.getD (t.header.indexOf col) "", r.eraseIdx (t.header.indexOf col))

/-- Python's `≤` on strings, as lists of characters: case-sensitive
lexicographic comparison by code point. -/
def lexLE : List Char → List Char → Bool
  | [], _ => true
  | _ :: _, [] => false
  | a :: as, b :: bs => if a < b then true else if b < a then false else lexLE as bs

/-- Python's `≤` on strings: case-sensitive lexicographic comparison of the
character sequences by code point. -/
def pyStrLE (a b : String) : Bool := lexLE a.data b.data

/-- The order `df.sort_index()` sorts keyed rows by: case-sensitive
lexicographic `≤` on the string key. -/
def rowLE (a b : String × List String) : Prop := pyStrLE a.1 b.1 = true

instance : DecidableRel rowLE := fun a b =>
  inferInstanceAs (Decidable (pyStrLE a.1 b.1 = true))

theorem lexLE_total : ∀ xs ys : List Char, lexLE xs ys = true ∨ lexLE ys xs = true := by
  intro xs
  induction xs with
  | nil => intro ys; left; rfl
  | cons a as ih =>
    intro ys
    cases ys with
    | nil => right; rfl
    | cons b bs =>
      by_cases hab : a < b
      · left; simp [lexLE, hab]
      · by_cases hba : b < a
        · right; simp [lexLE, hba]
        · rcases ih bs with h | h
          · left; simp [lexLE, hab, hba, h]
          · right; simp [lexLE, hab, hba, h]

theorem lexLE_trans :
    ∀ xs ys zs : List Char, lexLE xs ys = true → lexLE ys zs = true →
      lexLE xs zs = true := by
  intro xs
  induction xs with
  | nil => intro ys zs _ _; rfl
  | cons a as ih =>
    intro ys zs h1 h2
    cases ys with
    | nil => simp [lexLE] at h1
    | cons b bs =>
      cases zs with
      | nil => simp [lexLE] at h2
      | cons c cs =>
        simp only [lexLE] at h1 h2 ⊢
        by_cases hab : a < b
        · by_cases hbc : b < c
          · simp [lt_trans hab hbc]
          · by_cases hcb : c < b
            · simp [hbc, hcb] at h2
            · have hbc' : b = c := le_antisymm (not_lt.mp hcb) (not_lt.mp hbc)
              simp [hbc' ▸ hab]
        · by_cases hba : b < a
          · simp [hab, hba] at h1
          · have hab' : a = b := le_antisymm (not_lt.mp hba) (not_lt.mp hab)
            by_cases hbc : b < c
            · simp [hab' ▸ hbc]
            · by_cases hcb : c < b
              · simp [hbc, hcb] at h2
              · have hbc' : b = c := le_antisymm (not_lt.mp hcb) (not_lt.mp hbc)
                have hac : ¬ a < c := hbc' ▸ hab' ▸ hab
                have hca : ¬ c < a := hbc' ▸ hab' ▸ hba
                simp only [hab, hba, if_neg, ite_false] at h1
                simp only [hbc, hcb, if_neg, ite_false] at h2
                simp [hac, hca, ih bs cs h1 h2]

instance : IsTotal (String × List String) rowLE :=
  ⟨fun a b => by
    rcases lexLE_total a.1.data b.1.data with h | h
    · exact Or.inl h
    · exact Or.inr h⟩

instance : IsTrans (String × List String) rowLE :=
  ⟨fun _ _ _ h h' => lexLE_trans _ _ _ h h'⟩

/-- Normalization of the matched table (src/components.py lines 100-106):
`df.set_index(col)`, `df.index.name = 'Symbol'`, `df.sort_index()`. -/
def normalizeTable (col : String) (t : Table) : ComponentTable :=
  { indexName := "Symbol",
    columns := t.header.eraseIdx (t.header.indexOf col),
    rows := (List.insertionSort rowLE (setIndex col t)).map
              fun p => (Sum.inl p.1, p.2) }

/-- The parse/select/normalize steps of `get_index_components_at`
(src/components.py lines 96-106) on the table list `pd.read_html` produced.
`pd.read_html` raises `ValueError` when the document has no table at all.
When a table matches, it is re-keyed on the matched column, the index is
renamed `"Symbol"`, and `sort_index()` sorts the rows by key ascending.
When NO table matches, the loop falls through with `df` still bound to the
LAST table: its default `RangeIndex` is renamed `"Symbol"` and
`sort_index()` keeps the original row order. -/
def extractFromTables : List Table → Except PyError ComponentTable
  | [] => .error .valueError
  | t₀ :: ts =>
    match scanTables (t₀ :: ts) with
    | some (col, t) => .ok (normalizeTable col t)
    | none =>
        let t := (t₀ :: ts).getLast (List.cons_ne_nil t₀ ts)
        .ok { indexName := "Symbol",
              columns := t.header,
              rows := t.rows.enum.map fun p => (Sum.inr p.1, p.2) }

/-- Metadata of one page revision, as returned by the revisions endpoint
(`rvprop=ids|timestamp|user|comment`). -/
structure Revision where
  revid : Nat
  timestamp : Nat
  user : String
  comment : String
deriving Repr, DecidableEq

/-- One entry of `data["query"]["pages"]`; the `revisions` key is absent
(`none`) when the page has no revision in the queried range. -/
structure PageEntry where
  revisions : Option (List Revision)
deriving Repr, DecidableEq

/-- The decoded JSON body `data["query"]`. -/
structure ApiResponse where
  pages : List PageEntry
deriving Repr, DecidableEq

/-- Is a revision inside the window the query parameters select?  With
`rvdir='older'` the enumeration starts at `rvstart` and ends at `rvend`
(`rvend ≤ timestamp ≤ rvstart`); with `rvdir='newer'` the bounds swap
roles. -/
def revInRange (rvdir : String) (rvstart rvend : Option Nat) (r : Revision) :
    Bool :=
  (match (if rvdir = "older" then rvend else rvstart) with
   | none => true
   | some d => decide (d ≤ r.timestamp)) &&
  (match (if rvdir = "older" then rvstart else rvend) with
   | none => true
   | some d => decide (r.timestamp ≤ d))

/-- The in-range revisions, ordered per `rvdir` (new→old for `older`,
old→new for `newer`), truncated to `rvlimit`: exactly what the endpoint's
response carries. -/
def selectedRevisions (db : List Revision) (rvdir : String)
    (rvstart rvend : Option Nat) (rvlimit : Nat) : List Revision :=
  (if rvdir = "older" then
      List.insertionSort (fun a b : Revision => b.timestamp ≤ a.timestamp)
        (db.filter (revInRange rvdir rvstart rvend))
    else
      List.insertionSort (fun a b : Revision => a.timestamp ≤ b.timestamp)
        (db.filter (revInRange rvdir rvstart rvend))).take rvlimit

/-- Model of the external MediaWiki `action=query&prop=revisions` endpoint,
with the semantics the script relies on (documented in
`get_revisions_metadata`'s docstring, src/components.py lines 38-43):
`db` is the queried page's full revision history; with `rvdir='older'`
revisions are enumerated new→old starting at `rvstart` and ending at `rvend`
(so `rvstart ≥ timestamp ≥ rvend`), with `rvdir='newer'` old→new
(`rvstart ≤ timestamp ≤ rvend`); `rvlimit` bounds how many are returned; a
page with no revision in range comes back without a `revisions` field. -/
def mediaWikiRevisions (db : List Revision) (rvdir : String)
    (rvstart rvend : Option Nat) (rvlimit : Nat) : ApiResponse :=
  let sel := selectedRevisions db rvdir rvstart rvend rvlimit
  { pages := [{ revisions := if sel.isEmpty then none else some sel }] }

/-- `get_revisions_metadata` (src/components.py lines 33-78): build the
query (`rvlimit`, `rvdir`, optional `rvstart`/`rvend`), issue it, and take
`data["query"]["pages"][0]["revisions"]` out of the JSON: an empty `pages`
array raises `IndexError`, a page object without the `revisions` key raises
`KeyError`. -/
def get_revisions_metadata (db : List Revision) (rvstart rvend : Option Nat)
    (rvdir : String := "newer") (rvlimit : Nat := 1) :
    Except PyError (List Revision) :=
  match (mediaWikiRevisions db rvdir rvstart rvend rvlimit).pages with
  | [] => .error .indexError
  | p :: _ =>
    match p.revisions with
    | none => .error .keyError
    | some rs => .ok rs

/-- `get_index_components_at` (src/components.py lines 80-106): fetch the
latest revision at or before `when` (`rvdir='older'`, `rvstart=when`), take
`revisions[0]`, fetch the rendered page of that exact revision (`render
revid` stands for `pd.read_html` on the `oldid=revid` page URL), then scan
and normalize its tables. -/
def get_index_components_at (db : List Revision) (render : Nat → List Table)
    (when : Nat) : Except PyError ComponentTable :=
  match get_revisions_metadata db (some when) none "older" 1 with
  | .error e => .error e
  | .ok [] => .error .indexError
  | .ok (rev :: _) => extractFromTables (render rev.revid)

/-- `list(components_at_date.index)`: the index elements of the extracted
table, in index order; `[]` when extraction failed (unreachable under the
success hypotheses it is used with). -/
def symbolsAt (db : List Revision) (render : Nat → List Table) (when : Nat) :
    List SymKey :=
  match get_index_components_at db render when with
  | .ok ct => ct.rows.map Prod.fst
  | .error _ => []

/-- `get_index_components_history` (src/components.py lines 108-126): visit
the generated sample dates in order; for each, look up the older-direction
revision and extract the table, recording `list(df.index)` under the key
`str(date)` (`strOf`).  The insertion-ordered Python dict is modelled as the
association list in insertion order; the first failing date aborts the whole
run with its error. -/
def get_index_components_history (db : List Revision)
    (render : Nat → List Table) (strOf : Nat → String) :
    List Nat → Except PyError (List (String × List SymKey))
  | [] => .ok []
  | d :: ds =>
    match get_index_components_at db render d with
    | .error e => .error e
    | .ok ct =>
      match get_index_components_history db render strOf ds with
      | .error e => .error e
      | .ok rest => .ok ((strOf d, ct.rows.map Prod.fst) :: rest)

/-- `isinstance(component, str)` on a pandas index element. -/
def isStr : SymKey → Bool
  | .inl _ => true
  | .inr _ => false

/-- The string payload of an index element (only consulted under the
`all isStr` guard). -/
def strVal : SymKey → String
  | .inl s => s
  | .inr _ => ""

/-- Splitting a character sequence on runs of whitespace, dropping empty
pieces; `acc` accumulates the current token in reverse. -/
def splitWSAux : List Char → List Char → List (List Char)
  | [], acc => if acc.isEmpty then [] else [acc.reverse]
  | c :: cs, acc =>
    if c.isWhitespace then
      if acc.isEmpty then splitWSAux cs [] else acc.reverse :: splitWSAux cs []
    else splitWSAux cs (c :: acc)

/-- Python `str.split()` with no argument: split on runs of whitespace,
dropping empty pieces (so leading/trailing whitespace is stripped and a
whitespace-only string yields `[]`). -/
def pysplit (s : String) : List String :=
  (splitWSAux s.data []).map String.mk

/-- The snapshot file name `f"{index}/{index}_{formatted_date}.csv"`. -/
def csvPath (index fd : String) : String :=
  index ++ "/" ++ index ++ "_" ++ fd ++ ".csv"

/-- The warning printed for a skipped pair. -/
def warnMsg (date : String) : String :=
  "Skipping date " ++ date ++ " due to non-string components"

/-- `components_to_separate_csv` (src/components.py lines 128-140), with its
effects made explicit: the result collects, in loop order, the
`(path, content)` file writes and the printed warnings.  A pair whose list
is all strings is written to `{index}/{index}_{date.split()[0]}.csv` as the
comma-join of its list (`date.split()[0]` raises `IndexError` when the date
string has no whitespace-separated token); any other pair is skipped with a
warning. -/
def components_to_separate_csv :
    List (String × List SymKey) → String →
    Except PyError (List (String × String) × List String)
  | [], _ => .ok ([], [])
  | (date, cl) :: rest, index =>
    if cl.all isStr then
      match (pysplit date).head? with
      | none => .error .indexError
      | some fd =>
        match components_to_separate_csv rest index with
        | .error e => .error e
        | .ok (ws, warns) =>
          .ok ((csvPath index fd, String.intercalate "," (cl.map strVal)) :: ws,
               warns)
    else
      match components_to_separate_csv rest index with
      | .error e => .error e
      | .ok (ws, warns) => .ok (ws, warnMsg date :: warns)

/-- `open(path, "w")` truncates before writing: applying the collected
writes in order to a file system, each write replaces whatever content its
path held before. -/
def applyWrites (fs : String → Option String) :
    List (String × String) → String → Option String
  | [] => fs
  | (p, c) :: ws => applyWrites (fun q => if q = p then some c else fs q) ws

/-- The file write one loop iteration of `components_to_separate_csv`
produces for a pair, if any. -/
def writeOf (index : String) (p : String × List SymKey) :
    Option (String × String) :=
  if p.2.all isStr then
    some (csvPath index ((pysplit p.1).headD ""),
          String.intercalate "," (p.2.map strVal))
  else none

/-- The warning one loop iteration of `components_to_separate_csv` produces
for a pair, if any. -/
def warnOf (p : String × List SymKey) : Option String :=
  if p.2.all isStr then none else some (warnMsg p.1)

/-- A pair the loop body of `components_to_separate_csv` handles without
raising: either it is skipped, or its date string has a first token for
`date.split()[0]`. -/
def processable (p : String × List SymKey) : Bool :=
  !p.2.all isStr || !(pysplit p.1).isEmpty

/-- A leading legend/comment table without a symbol column, as found before
the components table on some revisions. -/
def legendTable : Table := ⟨["Note"], [["legend"]]⟩

/-- The spec's scenario table: header `["Symbol", "Security"]` with rows
MSFT, AAPL, GOOG in unsorted order. -/
def spxTable : Table :=
  ⟨["Symbol", "Security"],
   [["MSFT", "Microsoft"], ["AAPL", "Apple"], ["GOOG", "Alphabet"]]⟩

/-- A matched table whose symbol column has a duplicate value and an empty
value. -/
def dupSymbolTable : Table :=
  ⟨["Symbol", "Security"], [["AAPL", "a"], ["AAPL", "b"], ["", "c"]]⟩

/-- A two-revision page history used in concrete witnesses: revision 7 at
time 100, revision 9 at time 200. -/
def dbW : List Revision := [⟨7, 100, "u", "c"⟩, ⟨9, 200, "u", "c"⟩]

/-- A rendered-page function for witnesses: every revision renders to the
single scenario components table. -/
def renderSpx : Nat → List Table := fun _ => [spxTable]

/-!  Theorems. -/

theorem scanTables_append_of_no_match (pre ts : List Table)
    (hpre : pre.all (fun u => !headerMatches u) = true) :
    scanTables (pre ++ ts) = scanTables ts := by
  induction pre with
  | nil => rfl
  | cons u us ih =>
    rw [List.all_cons, Bool.and_eq_true] at hpre
    have hu : headerMatches u = false := by
      simpa using hpre.1
    simp only [headerMatches, Bool.or_eq_false_iff] at hu
    have h1 : "Symbol" ∉ u.header := by simpa using hu.1
    have h2 : "Ticker symbol" ∉ u.header := by simpa using hu.2
    simpa [scanTables, h1, h2] using ih hpre.2

theorem scanTables_cons_of_match (t : Table) (ts : List Table)
    (ht : headerMatches t = true) :
    scanTables (t :: ts) = some (matchedCol t, t) := by
  have ht' : "Symbol" ∈ t.header ∨ "Ticker symbol" ∈ t.header := by
    simpa [headerMatches] using ht
  by_cases h : "Symbol" ∈ t.header
  · simp [scanTables, matchedCol, h]
  · have h2 : "Ticker symbol" ∈ t.header := ht'.resolve_left h
    simp [scanTables, matchedCol, h, h2]

theorem extractFromTables_first_match (pre post : List Table) (t : Table)
    (hpre : pre.all (fun u => !headerMatches u) = true)
    (ht : headerMatches t = true) :
    extractFromTables (pre ++ t :: post) = .ok (normalizeTable (matchedCol t) t) := by
  have hscan : scanTables (pre ++ t :: post) = some (matchedCol t, t) := by
    rw [scanTables_append_of_no_match pre _ hpre,
        scanTables_cons_of_match t post ht]
  obtain ⟨a, l, hal⟩ : ∃ a l, pre ++ t :: post = a :: l := by
    cases pre with
    | nil => exact ⟨t, post, rfl⟩
    | cons u us => exact ⟨u, us ++ t :: post, rfl⟩
  rw [hal] at hscan ⊢
  simp [extractFromTables, hscan]

/-- C1: for every document whose table list splits as `pre ++ t :: post`
with no table of `pre` carrying a recognized header and `t` carrying one,
the table scan of `get_index_components_at` selects `t` — the first
matching table in document order — skipping all earlier tables and ignoring
later ones; it re-keys the rows of `t` on the matched column, renames that
column (the index) to "Symbol", and the returned rows are a permutation of
the re-keyed rows sorted by symbol ascending in case-sensitive
lexicographic order. -/
theorem extract_selects_first_match_sorted (pre post : List Table) (t : Table)
    (hpre : pre.all (fun u => !headerMatches u) = true)
    (ht : headerMatches t = true) :
    extractFromTables (pre ++ t :: post) = .ok (normalizeTable (matchedCol t) t)
    ∧ (normalizeTable (matchedCol t) t).indexName = "Symbol"
    ∧ (normalizeTable (matchedCol t) t).columns
        = t.header.eraseIdx (t.header.indexOf (matchedCol t))
    ∧ ∃ keyed, (normalizeTable (matchedCol t) t).rows
          = keyed.map (fun p => (Sum.inl p.1, p.2))
        ∧ keyed.Perm (setIndex (matchedCol t) t)
        ∧ List.Sorted rowLE keyed :=
  ⟨extractFromTables_first_match pre post t hpre ht, rfl, rfl,
    List.insertionSort rowLE (setIndex (matchedCol t) t), rfl,
    List.perm_insertionSort _ _, List.sorted_insertionSort _ _⟩

/-- Witness for C1 at the spec's scenario: a legend table followed by
`["Symbol","Security"]` rows MSFT, AAPL, GOOG. -/
theorem extract_selects_first_match_sorted_witness :
    extractFromTables ([legendTable] ++ spxTable :: [])
        = .ok (normalizeTable (matchedCol spxTable) spxTable)
    ∧ (normalizeTable (matchedCol spxTable) spxTable).indexName = "Symbol"
    ∧ (normalizeTable (matchedCol spxTable) spxTable).columns
        = spxTable.header.eraseIdx (spxTable.header.indexOf (matchedCol spxTable))
    ∧ ∃ keyed, (normalizeTable (matchedCol spxTable) spxTable).rows
          = keyed.map (fun p => (Sum.inl p.1, p.2))
        ∧ keyed.Perm (setIndex (matchedCol spxTable) spxTable)
        ∧ List.Sorted rowLE keyed :=
  extract_selects_first_match_sorted [legendTable] [] spxTable rfl rfl

/-- C2 (code evidence): on a document where NO table has a recognized
header, `get_index_components_at` does not fail: the loop falls through,
leaving `df` bound to the last-scanned table, whose integer `RangeIndex` is
renamed "Symbol" and returned — here the second of two non-matching
tables, rows intact under integer keys. -/
theorem extract_no_match_returns_last_table :
    extractFromTables [⟨["A", "B"], [["x", "y"]]⟩, ⟨["C"], [["z1"], ["z2"]]⟩]
      = .ok { indexName := "Symbol", columns := ["C"],
              rows := [(Sum.inr 0, ["z1"]), (Sum.inr 1, ["z2"])] } := rfl

/-- Counterexample for C3: a matched table with a duplicate symbol "AAPL"
and an empty symbol "" is returned as a ComponentTable (duplicates and the
empty key preserved), not rejected with any error. -/
theorem extract_accepts_duplicate_and_empty_symbols :
    extractFromTables [dupSymbolTable]
      = .ok { indexName := "Symbol", columns := ["Security"],
              rows := [(Sum.inl "", ["c"]), (Sum.inl "AAPL", ["a"]),
                       (Sum.inl "AAPL", ["b"])] } := rfl

/-- C3 amended: `get_index_components_at` performs no validation of symbol
values: every matched table — whether or not its symbol column has
duplicate or empty values — is returned as a ComponentTable with exactly
as many rows as the source table, never an error. -/
theorem extract_no_symbol_validation (pre post : List Table) (t : Table)
    (hpre : pre.all (fun u => !headerMatches u) = true)
    (ht : headerMatches t = true) :
    extractFromTables (pre ++ t :: post) = .ok (normalizeTable (matchedCol t) t)
    ∧ (normalizeTable (matchedCol t) t).rows.length = t.rows.length := by
  refine ⟨extractFromTables_first_match pre post t hpre ht, ?_⟩
  simp [normalizeTable, setIndex]

/-- Witness for the amended C3 at the duplicate/empty-symbol table. -/
theorem extract_no_symbol_validation_witness :
    extractFromTables ([] ++ dupSymbolTable :: [])
        = .ok (normalizeTable (matchedCol dupSymbolTable) dupSymbolTable)
    ∧ (normalizeTable (matchedCol dupSymbolTable) dupSymbolTable).rows.length
        = dupSymbolTable.rows.length :=
  extract_no_symbol_validation [] [] dupSymbolTable rfl rfl

theorem get_revisions_metadata_eq (db : List Revision)
    (rvstart rvend : Option Nat) (rvdir : String) (rvlimit : Nat) :
    get_revisions_metadata db rvstart rvend rvdir rvlimit =
      if (selectedRevisions db rvdir rvstart rvend rvlimit).isEmpty
      then .error .keyError
      else .ok (selectedRevisions db rvdir rvstart rvend rvlimit) := by
  by_cases h : (selectedRevisions db rvdir rvstart rvend rvlimit).isEmpty
  · simp [get_revisions_metadata, mediaWikiRevisions, h]
  · simp [get_revisions_metadata, mediaWikiRevisions, h]

theorem mem_selectedRevisions (db : List Revision) (rvdir : String)
    (rvstart rvend : Option Nat) (rvlimit : Nat) (r : Revision)
    (hr : r ∈ selectedRevisions db rvdir rvstart rvend rvlimit) :
    r ∈ db ∧ revInRange rvdir rvstart rvend r = true := by
  unfold selectedRevisions at hr
  have h1 := List.mem_of_mem_take hr
  by_cases hdir : rvdir = "older"
  · rw [if_pos hdir, List.mem_insertionSort] at h1
    exact List.mem_filter.mp h1
  · rw [if_neg hdir, List.mem_insertionSort] at h1
    exact List.mem_filter.mp h1

/-- C4: when the queried page has zero revisions in the requested range —
here, every revision of the page is strictly later than the target date `d`
queried with `rvdir='older'` — the revision lookup fails (the `KeyError` of
`pages[0]['revisions']` on a response without a `revisions` field, the
failure the spec's taxonomy calls `NotFoundError`); it does not return a
default or empty result, and `get_index_components_at` fails the same way. -/
theorem revision_lookup_fails_when_no_revision_in_range
    (db : List Revision) (render : Nat → List Table) (d : Nat)
    (h : db.all (fun r => !decide (r.timestamp ≤ d)) = true) :
    get_revisions_metadata db (some d) none "older" 1 = .error .keyError
    ∧ get_index_components_at db render d = .error .keyError := by
  have hfil : db.filter (revInRange "older" (some d) none) = [] := by
    rw [List.filter_eq_nil_iff]
    intro r hr
    have hrd : decide (r.timestamp ≤ d) = false := by
      simpa using List.all_eq_true.mp h r hr
    simp [revInRange, hrd]
  have hsel : selectedRevisions db "older" (some d) none 1 = [] := by
    simp [selectedRevisions, hfil, List.insertionSort]
  have h1 : get_revisions_metadata db (some d) none "older" 1
      = .error .keyError := by
    rw [get_revisions_metadata_eq, hsel]
    rfl
  exact ⟨h1, by simp [get_index_components_at, h1]⟩

/-- Witness for C4: a page whose only revision is at time 100, queried at
the earlier date 50. -/
theorem revision_lookup_fails_when_no_revision_in_range_witness :
    get_revisions_metadata [⟨7, 100, "u", "c"⟩] (some 50) none "older" 1
        = .error .keyError
    ∧ get_index_components_at [⟨7, 100, "u", "c"⟩] renderSpx 50
        = .error .keyError :=
  revision_lookup_fails_when_no_revision_in_range [⟨7, 100, "u", "c"⟩]
    renderSpx 50 rfl

/-- C5: the revision the lookup returns is never on the wrong side of the
requested boundary: whatever revision comes back first from a query with
`rvstart = d` has timestamp ≤ `d` when `rvdir='older'` and timestamp ≥ `d`
when `rvdir='newer'` (this is the query `get_index_components_at` issues
with `rvdir='older'`, `rvstart=when`). -/
theorem revision_never_on_wrong_side (db : List Revision) (d rvlimit : Nat)
    (r : Revision) (rs : List Revision) :
    (get_revisions_metadata db (some d) none "older" rvlimit = .ok (r :: rs) →
      r.timestamp ≤ d)
    ∧ (get_revisions_metadata db (some d) none "newer" rvlimit = .ok (r :: rs) →
      d ≤ r.timestamp) := by
  constructor
  · intro h
    rw [get_revisions_metadata_eq] at h
    by_cases hs : (selectedRevisions db "older" (some d) none rvlimit).isEmpty
    · rw [if_pos hs] at h; exact absurd h (by simp)
    · rw [if_neg hs] at h
      have hsel := Except.ok.inj h
      have hmem : r ∈ selectedRevisions db "older" (some d) none rvlimit := by
        rw [hsel]; exact List.mem_cons_self r rs
      have := (mem_selectedRevisions db "older" (some d) none rvlimit r hmem).2
      simpa [revInRange] using this
  · intro h
    rw [get_revisions_metadata_eq] at h
    by_cases hs : (selectedRevisions db "newer" (some d) none rvlimit).isEmpty
    · rw [if_pos hs] at h; exact absurd h (by simp)
    · rw [if_neg hs] at h
      have hsel := Except.ok.inj h
      have hmem : r ∈ selectedRevisions db "newer" (some d) none rvlimit := by
        rw [hsel]; exact List.mem_cons_self r rs
      have := (mem_selectedRevisions db "newer" (some d) none rvlimit r hmem).2
      simpa [revInRange] using this

/-- Witness for C5 on the two-revision page: at date 150, `older` returns
the time-100 revision (100 ≤ 150) and `newer` returns the time-200 revision
(150 ≤ 200). -/
theorem revision_never_on_wrong_side_witness :
    (get_revisions_metadata dbW (some 150) none "older" 1
        = .ok [⟨7, 100, "u", "c"⟩])
    ∧ (100 : Nat) ≤ 150
    ∧ (get_revisions_metadata dbW (some 150) none "newer" 1
        = .ok [⟨9, 200, "u", "c"⟩])
    ∧ (150 : Nat) ≤ 200 :=
  ⟨rfl,
   (revision_never_on_wrong_side dbW 150 1 ⟨7, 100, "u", "c"⟩ []).1 rfl,
   rfl,
   (revision_never_on_wrong_side dbW 150 1 ⟨9, 200, "u", "c"⟩ []).2 rfl⟩

theorem exists_ok_of_isOk {α : Type} {x : Except PyError α}
    (h : x.isOk = true) : ∃ a, x = .ok a := by
  cases x with
  | ok a => exact ⟨a, rfl⟩
  | error e => simp [Except.isOk, Except.toBool] at h

/-- C6: `get_index_components_history` visits every generated sample date
in generation order, for each one performing the older-direction revision
lookup followed by table extraction, and records the resulting symbol list
under `str(date)`; when every date succeeds, the resulting insertion-ordered
mapping is exactly the date list mapped in order to its symbol list, so its
iteration order equals the date-generation order. -/
theorem history_records_dates_in_order (db : List Revision)
    (render : Nat → List Table) (strOf : Nat → String) (dates : List Nat)
    (h : dates.all (fun d => (get_index_components_at db render d).isOk) = true) :
    get_index_components_history db render strOf dates
      = .ok (dates.map fun d => (strOf d, symbolsAt db render d)) := by
  induction dates with
  | nil => rfl
  | cons d ds ih =>
    rw [List.all_cons, Bool.and_eq_true] at h
    obtain ⟨ct, hct⟩ := exists_ok_of_isOk h.1
    simp [get_index_components_history, hct, ih h.2, symbolsAt]

/-- Witness for C6: two sample dates on the two-revision page, both
rendering the scenario table; the mapping lists the dates in generation
order with the sorted symbol lists. -/
theorem history_records_dates_in_order_witness :
    get_index_components_history dbW renderSpx (fun n => toString n) [150, 200]
      = .ok [("150", [Sum.inl "AAPL", Sum.inl "GOOG", Sum.inl "MSFT"]),
             ("200", [Sum.inl "AAPL", Sum.inl "GOOG", Sum.inl "MSFT"])] :=
  history_records_dates_in_order dbW renderSpx (fun n => toString n)
    [150, 200] rfl

/-- C7: an error while processing any single sample date propagates
unhandled out of `get_index_components_history` and aborts the whole run:
whatever dates follow, and however many earlier dates succeeded, the result
is that error — no partial mapping of the earlier successful dates is
returned and no retry occurs. -/
theorem history_aborts_on_first_error (db : List Revision)
    (render : Nat → List Table) (strOf : Nat → String)
    (pre post : List Nat) (d : Nat) (e : PyError)
    (hpre : pre.all (fun x => (get_index_components_at db render x).isOk) = true)
    (hd : get_index_components_at db render d = .error e) :
    get_index_components_history db render strOf (pre ++ d :: post)
      = .error e := by
  induction pre with
  | nil => simp [get_index_components_history, hd]
  | cons p ps ih =>
    rw [List.all_cons, Bool.and_eq_true] at hpre
    obtain ⟨ct, hct⟩ := exists_ok_of_isOk hpre.1
    simp [get_index_components_history, hct, ih hpre.2]

/-- Witness for C7: date 150 succeeds, date 50 precedes the page's first
revision and raises; the whole run returns that error although a later
date (999) would have succeeded. -/
theorem history_aborts_on_first_error_witness :
    get_index_components_history dbW renderSpx (fun n => toString n)
        ([150] ++ 50 :: [999])
      = .error .keyError :=
  history_aborts_on_first_error dbW renderSpx (fun n => toString n)
    [150] [999] 50 .keyError rfl rfl

/-- C9: table extraction is deterministic: two runs of the
parse/select/normalize steps of `get_index_components_at` on the same
historical HTML content yield the same symbol-sorted table (the embedding
of the extraction depends on nothing but the document's tables). -/
theorem extraction_deterministic (tables : List Table)
    (r₁ r₂ : Except PyError ComponentTable)
    (h₁ : extractFromTables tables = r₁) (h₂ : extractFromTables tables = r₂) :
    r₁ = r₂ := h₁ ▸ h₂

/-- Witness for C9 at the scenario table. -/
theorem extraction_deterministic_witness :
    extractFromTables [spxTable] = .ok (normalizeTable "Symbol" spxTable)
    ∧ (Except.ok (normalizeTable "Symbol" spxTable) :
        Except PyError ComponentTable)
      = .ok (normalizeTable "Symbol" spxTable) :=
  ⟨rfl,
   extraction_deterministic [spxTable]
     (.ok (normalizeTable "Symbol" spxTable))
     (.ok (normalizeTable "Symbol" spxTable)) rfl rfl⟩

theorem exists_cons_of_not_isEmpty {α : Type} {l : List α}
    (h : l.isEmpty = false) : ∃ a t, l = a :: t := by
  cases l with
  | nil => simp at h
  | cons a t => exact ⟨a, t, rfl⟩

theorem components_run_eq (index : String)
    (comps : List (String × List SymKey))
    (h : comps.all processable = true) :
    components_to_separate_csv comps index
      = .ok (comps.filterMap (writeOf index), comps.filterMap warnOf) := by
  induction comps with
  | nil => rfl
  | cons p ps ih =>
    rw [List.all_cons, Bool.and_eq_true] at h
    obtain ⟨date, cl⟩ := p
    by_cases hall : cl.all isStr = true
    · have hne : (pysplit date).isEmpty = false := by
        have hp := h.1
        simpa [processable, hall] using hp
      obtain ⟨fd, rest, hfd⟩ := exists_cons_of_not_isEmpty hne
      simp [components_to_separate_csv, hall, hfd, ih h.2, writeOf, warnOf]
    · have hall' : cl.all isStr = false := Bool.eq_false_iff.mpr hall
      simp [components_to_separate_csv, hall', ih h.2, writeOf, warnOf]

theorem applyWrites_append (fs : String → Option String)
    (ws₁ ws₂ : List (String × String)) (q : String) :
    applyWrites fs (ws₁ ++ ws₂) q = applyWrites (applyWrites fs ws₁) ws₂ q := by
  induction ws₁ generalizing fs with
  | nil => rfl
  | cons w ws ih =>
    obtain ⟨p, c⟩ := w
    simp only [List.cons_append, applyWrites]
    exact ih _

theorem applyWrites_last (fs : String → Option String)
    (ws : List (String × String)) (p c : String) :
    applyWrites fs (ws ++ [(p, c)]) p = some c := by
  rw [applyWrites_append]
  simp [applyWrites]

/-- C8: in any run of `components_to_separate_csv` over a mapping
`pre ++ (date, cl) :: post` whose other pairs raise no exception and whose
date string has a date token: (1) when every element of `cl` is a non-empty
string, the pair contributes exactly one file write, in position, named
`{index}/{index}_{date-token}.csv` with the comma-join of the symbols as
content, and no warning; (2) applying the writes of a run ending with that
pair to ANY initial file system leaves that path holding the joined content
— any existing file of that name is overwritten; (3) when some element is
not a string, the pair contributes no write but a skip warning, and the run
still succeeds. -/
theorem snapshot_write_and_skip_policy (index date : String)
    (cl : List SymKey) (pre post : List (String × List SymKey))
    (hpre : pre.all processable = true) (hpost : post.all processable = true)
    (hdate : (pysplit date).isEmpty = false) :
    (cl.all (fun v => isStr v && !(strVal v).isEmpty) = true →
      components_to_separate_csv (pre ++ (date, cl) :: post) index
        = .ok (pre.filterMap (writeOf index)
                 ++ (csvPath index ((pysplit date).headD ""),
                     String.intercalate "," (cl.map strVal))
                 :: post.filterMap (writeOf index),
               pre.filterMap warnOf ++ post.filterMap warnOf))
    ∧ (cl.all (fun v => isStr v && !(strVal v).isEmpty) = true →
        ∀ fs out,
          components_to_separate_csv (pre ++ [(date, cl)]) index = .ok out →
          applyWrites fs out.1 (csvPath index ((pysplit date).headD ""))
            = some (String.intercalate "," (cl.map strVal)))
    ∧ (cl.any (fun v => !isStr v) = true →
        components_to_separate_csv (pre ++ (date, cl) :: post) index
          = .ok (pre.filterMap (writeOf index) ++ post.filterMap (writeOf index),
                 pre.filterMap warnOf
                   ++ warnMsg date :: post.filterMap warnOf)) := by
  have hwrite : ∀ post' : List (String × List SymKey),
      post'.all processable = true →
      cl.all (fun v => isStr v && !(strVal v).isEmpty) = true →
      components_to_separate_csv (pre ++ (date, cl) :: post') index
        = .ok (pre.filterMap (writeOf index)
                 ++ (csvPath index ((pysplit date).headD ""),
                     String.intercalate "," (cl.map strVal))
                 :: post'.filterMap (writeOf index),
               pre.filterMap warnOf ++ post'.filterMap warnOf) := by
    intro post' hpost' hnes
    have hstr : cl.all isStr = true := by
      rw [List.all_eq_true] at hnes ⊢
      intro v hv
      have hv' := hnes v hv
      rw [Bool.and_eq_true] at hv'
      exact hv'.1
    have hproc : processable (date, cl) = true := by
      simp [processable, hstr, hdate]
    have hallp : (pre ++ (date, cl) :: post').all processable = true := by
      rw [List.all_append, List.all_cons]
      simp [hpre, hpost', hproc]
    rw [components_run_eq index _ hallp]
    have hw : writeOf index (date, cl)
        = some (csvPath index ((pysplit date).headD ""),
                String.intercalate "," (cl.map strVal)) := by
      simp [writeOf, hstr]
    have hn : warnOf (date, cl) = none := by
      simp [warnOf, hstr]
    simp [List.filterMap_append, hw, hn]
  refine ⟨hwrite post hpost, ?_, ?_⟩
  · intro hnes fs out hout
    rw [hwrite [] rfl hnes] at hout
    have h1 : out.1 = pre.filterMap (writeOf index)
        ++ [(csvPath index ((pysplit date).headD ""),
             String.intercalate "," (cl.map strVal))] := by
      have := Except.ok.inj hout
      rw [← this]
      simp
    rw [h1, applyWrites_last]
  · intro hany
    have hallf : cl.all isStr = false := by
      rcases List.any_eq_true.mp hany with ⟨v, hv, hneg⟩
      rw [Bool.not_eq_true'] at hneg
      rw [Bool.eq_false_iff]
      intro hall
      have := List.all_eq_true.mp hall v hv
      rw [hneg] at this
      cases this
    have hproc : processable (date, cl) = true := by
      simp [processable, hallf]
    have hallp : (pre ++ (date, cl) :: post).all processable = true := by
      rw [List.all_append, List.all_cons]
      simp [hpre, hpost, hproc]
    rw [components_run_eq index _ hallp]
    have hw : writeOf index (date, cl) = none := by
      simp [writeOf, hallf]
    have hn : warnOf (date, cl) = some (warnMsg date) := by
      simp [warnOf, hallf]
    simp [List.filterMap_append, hw, hn]

/-- Witness for C8: a mapping with one skipped pair (an integer element)
followed by one valid pair; exactly the valid pair's file is written with
the comma-joined symbols, and the skipped pair leaves only its warning. -/
theorem snapshot_write_and_skip_policy_witness :
    components_to_separate_csv
        [("2015-01-01 00:00:00", [Sum.inr 3]),
         ("2015-04-01 00:00:00", [Sum.inl "AAPL", Sum.inl "MSFT"])] "SPX"
      = .ok ([("SPX/SPX_2015-04-01.csv", "AAPL,MSFT")],
             ["Skipping date 2015-01-01 00:00:00 due to non-string components"]) :=
  (snapshot_write_and_skip_policy "SPX" "2015-04-01 00:00:00"
      [Sum.inl "AAPL", Sum.inl "MSFT"]
      [("2015-01-01 00:00:00", [Sum.inr 3])] [] rfl rfl rfl).1 rfl

/-- C10: a pair whose symbol list is empty passes the all-strings check
vacuously: `components_to_separate_csv` writes an empty file for that date
(the comma-join of no symbols) instead of skipping it or failing. -/
theorem empty_list_written_as_empty_file (index date : String)
    (hdate : (pysplit date).isEmpty = false) :
    components_to_separate_csv [(date, ([] : List SymKey))] index
      = .ok ([(csvPath index ((pysplit date).headD ""), "")], []) := by
  obtain ⟨fd, rest, hfd⟩ := exists_cons_of_not_isEmpty hdate
  simp [components_to_separate_csv, hfd, String.intercalate]

/-- Witness for C10 at a concrete date. -/
theorem empty_list_written_as_empty_file_witness :
    components_to_separate_csv [("2015-07-01 00:00:00", ([] : List SymKey))] "SPX"
      = .ok ([("SPX/SPX_2015-07-01.csv", "")], []) :=
  empty_list_written_as_empty_file "SPX" "2015-07-01 00:00:00" rfl

end SP500Hist
